import Mathlib

/-!
A shallow embedding of the summarization core of `src/app.py` (module-level
functions `clean_text`, `extract_entities`, `generate_summary` and the pure
part of the `/summarize` route), together with proofs settling the frozen
claims about it.

Conventions of the embedding:
* Python strings are `String`, manipulated through explicit `List Char`
  helpers so that every operation is structural and provable.
* Python `str.split()` / `str.split('. ')` / `' '.join` / `str.strip()` /
  `str.lower()` are embedded by `pySplitWords` / `splitDotSpace` / `pyJoin` /
  `pyStrip` / `pyLower` below, faithful to CPython semantics on the ASCII
  range (the Unicode-only differences — exotic whitespace and case folding —
  play no role in any claim).
* Python floats are embedded as exact rationals.  The two places where the
  code truncates a float to an int (`int(n * 0.3)` for n ≤ 800 and
  `int(n * 0.4)` for n ≤ 1000) are embedded as the natural-number floors
  `3 * n / 10` and `2 * n / 5`: for every n in the reachable range the IEEE
  double product `n * 0.3` (resp. `n * 0.4`) truncates to exactly that floor,
  because the accumulated rounding error (≤ 9e-15) is far below the half-ulp
  at the nearest integer or half-integer boundary.  Sentence scores are
  likewise exact rationals; every property proved about the sentence
  selection (how many sentences, their order, the joining) holds for any
  comparison outcome, so it is insensitive to float rounding in the scores.
* A raised Python exception is the `Except.error` constructor, carrying
  `str(e)`; `try/except` blocks are matches on that value.
* The two external ML dependencies (the transformers summarization pipeline
  and spaCy) and the `re` module's matchers are black-box collaborators: they
  appear as function parameters, never as hand-rolled approximations.
-/

namespace AiSum

/-- Python's whitespace class (`str.split()`, `str.strip()`, regex `\s`) on
the ASCII range. -/
def pyIsSpace (c : Char) : Bool :=
  c = ' ' || c = '\t' || c = '\n' || c = '\r' || c = '\x0b' || c = '\x0c'

/-- Worker for `pySplitWords`: `acc` holds the current word, reversed. -/
def wtoksAux : List Char → List Char → List (List Char)
  | [], acc => if acc.isEmpty then [] else [acc.reverse]
  | c :: cs, acc =>
    if pyIsSpace c then
      if acc.isEmpty then wtoksAux cs [] else acc.reverse :: wtoksAux cs []
    else
      wtoksAux cs (c :: acc)

/-- The maximal whitespace-free runs of a character list. -/
def wtoks (l : List Char) : List (List Char) := wtoksAux l []

/-- Python `s.split()`: split on runs of whitespace, dropping empty tokens. -/
def pySplitWords (s : String) : List String := (wtoks s.data).map String.mk

/-- Python `len(s.split())`, the word count used throughout `src/app.py`. -/
def wordCount (s : String) : Nat := (pySplitWords s).length

/-- Join a list of character lists with a separator (Python `sep.join`). -/
def joinSep (sep : List Char) : List (List Char) → List Char
  | [] => []
  | [w] => w
  | w :: ws => w ++ sep ++ joinSep sep ws

/-- Python `sep.join(parts)`. -/
def pyJoin (sep : String) (parts : List String) : String :=
  String.mk (joinSep sep.data (parts.map String.data))

/-- Python `text.split('. ')` (src/app.py line 163): split on each
non-overlapping occurrence of a period followed by a space, keeping empty
parts, scanning left to right. -/
def splitDotSpace : List Char → List (List Char)
  | [] => [[]]
  | '.' :: ' ' :: rest => [] :: splitDotSpace rest
  | c :: rest => (splitDotSpace rest).modifyHead (c :: ·)

/-- Python `str.lower()` (ASCII case folding). -/
def pyLower (s : String) : String := String.mk (s.data.map Char.toLower)

/-- Python `str.strip()` on a character list. -/
def pyStrip (l : List Char) : List Char :=
  ((l.dropWhile pyIsSpace).reverse.dropWhile pyIsSpace).reverse

/-- `re.sub(r'\s+', ' ', text)` (src/app.py line 77): every maximal run of
whitespace becomes one space.  A whitespace character followed by another
whitespace character is dropped; a whitespace character followed by
non-whitespace (or at the end) becomes `' '`. -/
def collapseWs : List Char → List Char
  | [] => []
  | [c] => if pyIsSpace c then [' '] else [c]
  | c :: d :: rest =>
    if pyIsSpace c then
      if pyIsSpace d then collapseWs (d :: rest) else ' ' :: collapseWs (d :: rest)
    else
      c :: collapseWs (d :: rest)

/-- Modelled from the spec: `BeautifulSoup(raw_html, "html.parser").get_text()`
(src/app.py lines 75-76) is a call into the external bs4 library, whose code
is not part of this repository.  Spec §4.1: "parse as HTML-ish markup, extract
visible text content (non-text markup such as tags/attributes discarded)".
Embedded as: every span from a `<` through the next `>` is discarded (an
unterminated `<` discards the rest of the input); all other characters are
visible text. -/
def stripTags : List Char → List Char
  | [] => []
  | c :: cs =>
    if c = '<' then stripTags ((cs.dropWhile (· ≠ '>')).drop 1)
    else c :: stripTags cs
termination_by l => l.length
decreasing_by
  · simp only [List.length_cons]
    have h1 : (cs.dropWhile (· ≠ '>')).length ≤ cs.length :=
      (cs.dropWhile_sublist (· ≠ '>')).length_le
    have h2 : ((cs.dropWhile (· ≠ '>')).drop 1).length ≤ (cs.dropWhile (· ≠ '>')).length :=
      (List.drop_sublist 1 _).length_le
    omega
  · simp only [List.length_cons]; omega

/-- `clean_text` (src/app.py lines 74-77): extract the visible text, collapse
whitespace runs to single spaces, strip. -/
def clean_text (raw_html : String) : String :=
  String.mk (pyStrip (collapseWs (stripTags raw_html.data)))

/-- `extract_entities` (src/app.py lines 79-105), on the fallback path taken
when spaCy is unavailable.  The three `re.findall` calls are calls into the
external `re` module; they appear as the parameters `dates`, `money`, `names`,
each returning that pattern's match list in document order. -/
def extract_entities (dates money names : String → List String) (text : String) :
    List (String × String) :=
  let dateEnts := ((dates text).take 5).map fun d => (d, "DATE")
  let moneyEnts := ((money text).take 5).map fun a => (a, "MONEY")
  let nameEnts :=
    (((names text).take 10).filter fun n => 3 < n.length).map fun n => (n, "PERSON/ORG")
  (dateEnts ++ moneyEnts ++ nameEnts).take 20

/-- The advisory sentinel returned for inputs of fewer than 50 words
(src/app.py line 121). -/
def advisory : String :=
  "Text too short for meaningful summarization. Please provide at least 50 words."

/-- The sentences of the input, src/app.py line 163: `text.split('. ')`. -/
def sentencesOf (text : String) : List String :=
  (splitDotSpace text.data).map String.mk

/-- The word-frequency map of src/app.py lines 169-173: `word_freq[w]` is the
number of occurrences of `w` among the lower-cased words of the text when
`len(w) > 3`; a word of length ≤ 3 is not in the map (looking it up scores 0). -/
def word_freq (text : String) (w : String) : Nat :=
  if 3 < w.length then (pySplitWords (pyLower text)).count w else 0

/-- The score of sentence `s` at index `i` (src/app.py lines 175-192):
position component `(N - i) / N * 0.3`, plus the frequency of each word of
the lower-cased sentence, plus `0.2` when the sentence has 10 to 30 words. -/
def sentence_score (text : String) (i : Nat) (s : String) : ℚ :=
  let n := (sentencesOf text).length
  let sentence_words := pySplitWords (pyLower s)
  ((n - i : Nat) : ℚ) / (n : ℚ) * (3 / 10)
    + ((sentence_words.map fun w => ((word_freq text w : ℚ))).sum)
    + (if 10 ≤ sentence_words.length ∧ sentence_words.length ≤ 30 then 2 / 10 else 0)

/-- The score of the sentence at index `i` of the text. -/
def scoreAt (text : String) (i : Nat) : ℚ :=
  sentence_score text i ((sentencesOf text).getD i "")

/-- src/app.py lines 195-197: `target_sentences = max(2, min(5, int(N * 0.3)))`,
`top_sentences = sorted(scores.keys(), key=lambda x: scores[x], reverse=True)
[:target_sentences]`, `top_sentences.sort()`.  Python's `sorted` is the stable
sort, embedded as the stable `List.insertionSort`; the dictionary's keys
enumerate in insertion order `0, …, N-1`. -/
def topSentenceIdxs (text : String) : List Nat :=
  let n := (sentencesOf text).length
  let target_sentences := max 2 (min 5 (3 * n / 10))
  let top := (List.insertionSort
    (fun a b => scoreAt text b ≤ scoreAt text a) (List.range n)).take target_sentences
  List.insertionSort (· ≤ ·) top

/-- Append the trailing period of src/app.py lines 200-201: `if not
summary.endswith('.'): summary += '.'`. -/
def withDot (s : String) : String :=
  if s.data.getLast? = some '.' then s else s ++ "."

/-- The fallback extractive summarizer, src/app.py lines 162-203 (the `else`
branch of `generate_summary`). -/
def extractive_summary (text : String) : String :=
  let sentences := sentencesOf text
  if sentences.length ≤ 3 then text
  else
    withDot (pyJoin ". " ((topSentenceIdxs text).map fun i => sentences.getD i ""))

/-- The summarization strategy in use: `model call` when the transformers
pipeline loaded (`TRANSFORMER_AVAILABLE`), with `call text max_length
min_length` the external `summarizer(...)[0]['summary_text']` call, which
either returns a summary or raises; otherwise the in-repo fallback. -/
inductive SummarizerCfg where
  | model (call : String → Nat → Nat → Except String String)
  | fallback

/-- src/app.py line 128. -/
def chunk_size : Nat := 800

/-- src/app.py line 129: `chunks = [' '.join(words[i:i+chunk_size]) for i in
range(0, len(words), chunk_size)]`. -/
def chunksOfText (text : String) : List String :=
  let words := pySplitWords text
  (List.range ((words.length + chunk_size - 1) / chunk_size)).map
    fun j => pyJoin " " ((words.drop (chunk_size * j)).take chunk_size)

/-- The per-chunk upper length bound of src/app.py line 135:
`min(100, int(len(chunk.split()) * 0.3))`; chunk word counts are ≤ 800, where
float truncation equals `⌊3n/10⌋` (see the header). -/
def chunkMaxLen (n : Nat) : Nat := min 100 (3 * n / 10)

/-- src/app.py lines 131-140: summarize each chunk with bounds
`(chunkMaxLen, 20)`; a chunk whose call raises is skipped (`except: continue`). -/
def chunkSummaries (call : String → Nat → Nat → Except String String)
    (text : String) : List String :=
  (chunksOfText text).filterMap fun ch =>
    (call ch (chunkMaxLen (wordCount ch)) 20).toOption

/-- src/app.py line 143: `combined = ' '.join(summaries)`. -/
def combinedOf (call : String → Nat → Nat → Except String String)
    (text : String) : String :=
  pyJoin " " (chunkSummaries call text)

/-- The dynamic upper bound of src/app.py line 154:
`max_len = min(max_words, max(min_words, int(input_length * 0.4)))`; input
lengths on this path are ≤ 1000, where float truncation equals `⌊2n/5⌋`. -/
def dynamic_max_len (max_words min_words n : Nat) : Nat :=
  min max_words (max min_words (2 * n / 5))

/-- `generate_summary` (src/app.py lines 116-203).  Source defaults are
`max_words=150`, `min_words=30`.  An `Except.error` result is an exception
propagating out of the function: the only call not wrapped in a `try` is the
re-summarization of the combined chunk summaries (line 145). -/
def generate_summary (cfg : SummarizerCfg) (text : String)
    (max_words min_words : Nat) : Except String String :=
  let input_length := wordCount text
  if input_length < 50 then .ok advisory
  else
    match cfg with
    | .model call =>
      if 1000 < input_length then
        let combined := combinedOf call text
        if max_words < wordCount combined then call combined max_words min_words
        else .ok combined
      else
        match call text (dynamic_max_len max_words min_words input_length) min_words with
        | .ok s => .ok s
        | .error e => .ok ("Error generating summary: " ++ e)
    | .fallback => .ok (extractive_summary text)

/-- The user-input rejection of src/app.py line 267. -/
def too_short_error : String := "Text is too short. Please provide at least 20 words."

/-- Python `round(q, 1)`: round to one decimal place.  An exact tie (an odd
multiple of 0.05) is modelled as in Mathlib's `round`, rounding up; Python
rounds the nearest binary double, which almost never sits exactly on a tie.
The claims proved here use the same `round1` on both sides of each equation,
so no conclusion depends on the tie convention. -/
def round1 (q : ℚ) : ℚ := (round (q * 10) : ℚ) / 10

/-- The success payload of the `/summarize` route (src/app.py lines 283-291),
without the timestamp (wall-clock time is an external effect). -/
structure SummaryRecord where
  summary : String
  entities : List (String × String)
  original_word_count : Nat
  summary_word_count : Nat
  compression_ratio : ℚ
deriving Repr

/-- The pure core of the `/summarize` route (src/app.py lines 264-291), from
the cleaned text on: the 20-word gate, `generate_summary` (whose uncaught
exceptions the route's outer `try` turns into the error envelope of line 294),
entity extraction, and the compression ratio of line 275. -/
def summarize_core (cfg : SummarizerCfg) (dates money names : String → List String)
    (cleaned : String) (max_words : Nat) : Except String SummaryRecord :=
  let word_count := wordCount cleaned
  if word_count < 20 then .error too_short_error
  else
    match generate_summary cfg cleaned max_words 30 with
    | .error e => .error ("An error occurred: " ++ e)
    | .ok summary =>
      let summary_word_count := wordCount summary
      .ok { summary := summary
            entities := extract_entities dates money names cleaned
            original_word_count := word_count
            summary_word_count := summary_word_count
            compression_ratio :=
              round1 ((1 - (summary_word_count : ℚ) / (word_count : ℚ)) * 100) }

/-- The `/summarize` route down to `summarize_core` (src/app.py lines
256-267): the emptiness guard on the raw text, then normalization. -/
def summarize_route (cfg : SummarizerCfg) (dates money names : String → List String)
    (raw_text : String) (max_words : Nat) : Except String SummaryRecord :=
  if (pyStrip raw_text.data).isEmpty then .error "Please provide text to summarize"
  else summarize_core cfg dates money names (clean_text raw_text) max_words

/-! ### Definitions written from claim texts, and concrete inputs

`blocksOfWords` and `claimC2_chunking` restate the (amended) chunking policy
of claim C2 in the claim's own terms — consecutive word blocks of 800 — to be
compared with the engine's `range`-and-slice construction.  The remaining
definitions are the concrete inputs and stub strategies used by witnesses and
counterexamples. -/

/-- Claim C2's wording: split the word sequence into consecutive
non-overlapping blocks of 800 words, the last block possibly shorter. -/
def blocksOfWords (ws : List String) : List (List String) :=
  if ws = [] then [] else ws.take chunk_size :: blocksOfWords (ws.drop chunk_size)
termination_by ws.length
decreasing_by
  have hne : ws ≠ [] := by assumption
  have : ws.length ≠ 0 := fun h => hne (List.length_eq_zero.mp h)
  simp only [List.length_drop, chunk_size]
  omega

/-- The long-text policy as claim C2 (amended) words it: summarize each block
with bounds `(min 100 ⌊0.3 · blockWords⌋, 20)` skipping failed blocks,
concatenate the block summaries in order with single spaces, and if the
concatenation still exceeds `max_words` re-summarize it once with bounds
`(max_words, min_words)`. -/
def claimC2_chunking (call : String → Nat → Nat → Except String String)
    (text : String) (max_words min_words : Nat) : Except String String :=
  let chunks := (blocksOfWords (pySplitWords text)).map (pyJoin " ")
  let summaries := chunks.filterMap fun ch =>
    (call ch (min 100 (3 * wordCount ch / 10)) 20).toOption
  let combined := pyJoin " " summaries
  if max_words < wordCount combined then call combined max_words min_words
  else .ok combined

/-- A 10-word input (below the 20-word gate). -/
def text10 : String := pyJoin " " (List.replicate 10 "alpha")

/-- A 20-word input (advisory band). -/
def text20 : String := pyJoin " " (List.replicate 20 "alpha")

/-- A 50-word input (shortest full-summarization input). -/
def text50 : String := pyJoin " " (List.replicate 50 "alpha")

/-- A 79-word input: `int(79 * 0.4) = 31` but `round(79 * 0.4) = 32`. -/
def text79 : String := pyJoin " " (List.replicate 79 "a")

/-- A 1001-word input (shortest chunked input: blocks of 800 and 201 words). -/
def text1001 : String := pyJoin " " (List.replicate 1001 "a")

/-- A 1625-word input: blocks of 800, 800 and 25 words, and
`int(25 * 0.3) = 7` while `round(25 * 0.3) = 8`. -/
def text1625 : String := pyJoin " " (List.replicate 1625 "a")

/-- Twelve `". "`-separated two-word sentences: `int(12 * 0.3) = 3` but
`round(12 * 0.3) = 4`. -/
def ex12 : String := pyJoin ". " (List.replicate 12 "a b")

/-- A model-backed strategy that reports the length bounds it was handed. -/
def echoModel : String → Nat → Nat → Except String String :=
  fun _ maxLen minLen => .ok (pyJoin " " [toString maxLen, toString minLen])

/-- A model-backed strategy that always raises. -/
def boomModel : String → Nat → Nat → Except String String :=
  fun _ _ _ => .error "boom"

/-- A model-backed strategy returning the empty summary. -/
def emptyModel : String → Nat → Nat → Except String String :=
  fun _ _ _ => .ok ""

/-- A model-backed strategy that succeeds on every per-chunk call (upper
bound ≤ 100) with a 200-word summary, and raises on the re-summarization
call, whose upper bound is the route's `max_words = 150`. -/
def resumFailModel : String → Nat → Nat → Except String String :=
  fun _ maxLen _ =>
    if maxLen = 150 then .error "boom" else .ok (pyJoin " " (List.replicate 200 "b"))

/-- An entity matcher returning no matches (used to instantiate the external
`re.findall` parameters at concrete inputs). -/
def noMatches : String → List String := fun _ => []

/-- A model-backed strategy returning a fixed one-word summary. -/
def constModel : String → Nat → Nat → Except String String :=
  fun _ _ _ => .ok "s"

/-- The success record the pipeline produces for a 20-word input on the
fallback strategy with no entity matches: the advisory summary (12 words) and
compression ratio `round((1 - 12/20) * 100, 1) = 40.0`. -/
def rec20 : SummaryRecord :=
  { summary := advisory
    entities := []
    original_word_count := 20
    summary_word_count := 12
    compression_ratio := 40 }

/-- Whitespace-normal form: every whitespace character is a plain space and no
two adjacent characters are both whitespace.  This is the invariant
`collapseWs` establishes and under which it is the identity. -/
def cleanWs (l : List Char) : Prop :=
  (∀ c ∈ l, pyIsSpace c = true → c = ' ') ∧
    l.Chain' fun a b => ¬(pyIsSpace a = true ∧ pyIsSpace b = true)

/-- Exhaustive scan of the advisory band: for every post-normalization word
count in [20, 50), the compression ratio the pipeline computes for the
advisory summary, `round((1 - 12/wc) * 100, 1)`, is strictly positive. -/
def advisory_compression_scan : Bool :=
  (List.range 30).all fun k =>
    decide (0 < round1 ((1 - (wordCount advisory : ℚ) / ((20 + k : ℕ) : ℚ)) * 100))

/-! ### Lemmas: word tokenization -/

lemma wtoksAux_ne_nil_of_acc (l : List Char) :
    ∀ acc : List Char, acc ≠ [] → wtoksAux l acc ≠ [] := by
  induction l with
  | nil =>
    intro acc hacc
    simp [wtoksAux, List.isEmpty_iff, hacc]
  | cons c cs ih =>
    intro acc hacc
    by_cases hc : pyIsSpace c
    · simp [wtoksAux, hc, List.isEmpty_iff, hacc]
    · exact by simpa [wtoksAux, hc] using ih (c :: acc) (List.cons_ne_nil c acc)

lemma wtoksAux_ne_nil (l : List Char) :
    ∀ acc : List Char, (∃ c ∈ l, pyIsSpace c = false) → wtoksAux l acc ≠ [] := by
  induction l with
  | nil => rintro acc ⟨c, hc, -⟩; exact absurd hc (List.not_mem_nil c)
  | cons d cs ih =>
    rintro acc ⟨c, hc, hcs⟩
    by_cases hd : pyIsSpace d
    · have hmem : c ∈ cs := by
        rcases List.mem_cons.mp hc with rfl | h
        · exact absurd hd (by simp [hcs])
        · exact h
      by_cases hacc : acc.isEmpty
      · simpa [wtoksAux, hd, hacc] using ih [] ⟨c, hmem, hcs⟩
      · simp [wtoksAux, hd, hacc]
    · exact by
        simpa [wtoksAux, hd] using wtoksAux_ne_nil_of_acc cs (d :: acc) (List.cons_ne_nil d acc)

lemma one_le_wordCount (s : String) (c : Char) (hc : c ∈ s.data)
    (hs : pyIsSpace c = false) : 1 ≤ wordCount s := by
  have hne : wtoks s.data ≠ [] := wtoksAux_ne_nil s.data [] ⟨c, hc, hs⟩
  have : (wtoks s.data).length ≠ 0 := fun h => hne (List.length_eq_zero.mp h)
  simp only [wordCount, pySplitWords, List.length_map]
  omega

lemma wordCount_empty : wordCount "" = 0 := rfl

lemma mem_of_getLast? {α : Type} {l : List α} {a : α} (h : l.getLast? = some a) :
    a ∈ l := by
  have h2 : a ∈ l.reverse := by
    rw [← List.head?_reverse] at h
    cases hrev : l.reverse with
    | nil => simp [hrev] at h
    | cons x xs =>
      rw [hrev] at h
      simp only [List.head?_cons, Option.some.injEq] at h
      simp [h]
  exact List.mem_reverse.mp h2

lemma dot_mem_withDot (s : String) : '.' ∈ (withDot s).data := by
  unfold withDot
  split
  · exact mem_of_getLast? (by assumption)
  · rw [String.data_append]
    exact List.mem_append_right _ (by simp [String.data])

lemma withDot_has_word (s : String) :
    withDot s ≠ "" ∧ 1 ≤ wordCount (withDot s) := by
  have hmem : '.' ∈ (withDot s).data := dot_mem_withDot s
  refine ⟨fun h => ?_, one_le_wordCount _ '.' hmem (by decide)⟩
  rw [h] at hmem
  exact absurd hmem (List.not_mem_nil _)

/-! ### Lemmas: idempotence of the normalizer -/

lemma stripTags_no_lt (l : List Char) : '<' ∉ stripTags l := by
  induction l using stripTags.induct with
  | case1 => simp [stripTags]
  | case2 cs ih => rw [stripTags]; simpa using ih
  | case3 c cs hc ih =>
    rw [stripTags]
    simp only [if_neg hc]
    intro hmem
    rcases List.mem_cons.mp hmem with h | h
    · exact hc h.symm
    · exact ih h

lemma stripTags_eq_self (l : List Char) (h : '<' ∉ l) : stripTags l = l := by
  induction l with
  | nil => simp [stripTags]
  | cons c cs ih =>
    rw [stripTags]
    have hc : ¬ c = '<' := fun hcc => h (hcc ▸ List.mem_cons_self c cs)
    rw [if_neg hc, ih fun hm => h (List.mem_cons_of_mem c hm)]

lemma collapseWs_cons_nonspace (d : Char) (rest : List Char)
    (hd : pyIsSpace d = false) : collapseWs (d :: rest) = d :: collapseWs rest := by
  cases rest <;> simp [collapseWs, hd]

lemma mem_collapseWs (l : List Char) : ∀ c ∈ collapseWs l, c = ' ' ∨ c ∈ l := by
  induction l with
  | nil => simp [collapseWs]
  | cons c cs ih =>
    cases cs with
    | nil =>
      intro x hx
      by_cases hc : pyIsSpace c
      · simp only [collapseWs, if_pos hc] at hx
        exact Or.inl (List.eq_of_mem_singleton hx)
      · simp only [collapseWs, if_neg hc] at hx
        exact Or.inr (by simpa using hx)
    | cons d rest =>
      intro x hx
      by_cases hc : pyIsSpace c
      · by_cases hd : pyIsSpace d
        · simp only [collapseWs, if_pos hc, if_pos hd] at hx
          rcases ih x hx with h | h
          · exact Or.inl h
          · exact Or.inr (List.mem_cons_of_mem c h)
        · simp only [collapseWs, if_pos hc, if_neg hd] at hx
          rcases List.mem_cons.mp hx with h | h
          · exact Or.inl h
          · rcases ih x h with h2 | h2
            · exact Or.inl h2
            · exact Or.inr (List.mem_cons_of_mem c h2)
      · simp only [collapseWs, if_neg hc] at hx
        rcases List.mem_cons.mp hx with h | h
        · exact Or.inr (h ▸ List.mem_cons_self c _)
        · rcases ih x h with h2 | h2
          · exact Or.inl h2
          · exact Or.inr (List.mem_cons_of_mem c h2)

lemma cleanWs_tail {a : Char} {l : List Char} (h : cleanWs (a :: l)) : cleanWs l :=
  ⟨fun c hc => h.1 c (List.mem_cons_of_mem a hc), h.2.tail⟩

lemma collapseWs_cleanWs (l : List Char) : cleanWs (collapseWs l) := by
  induction l with
  | nil => exact ⟨by simp [collapseWs], by simp [collapseWs]⟩
  | cons c cs ih =>
    cases cs with
    | nil =>
      by_cases hc : pyIsSpace c
      · simp only [collapseWs, if_pos hc]
        exact ⟨fun x hx _ => List.eq_of_mem_singleton hx, List.chain'_singleton ' '⟩
      · simp only [collapseWs, if_neg hc]
        refine ⟨fun x hx hxs => absurd hxs ?_, List.chain'_singleton c⟩
        rw [List.eq_of_mem_singleton hx]
        simpa using hc
    | cons d rest =>
      by_cases hc : pyIsSpace c
      · by_cases hd : pyIsSpace d
        · simpa only [collapseWs, if_pos hc, if_pos hd] using ih
        · simp only [collapseWs, if_pos hc, if_neg hd]
          rw [collapseWs_cons_nonspace d rest (by simpa using hd)] at ih ⊢
          refine ⟨?_, ?_⟩
          · intro x hx hxs
            rcases List.mem_cons.mp hx with h | h
            · exact h
            · exact ih.1 x h hxs
          · exact List.chain'_cons.mpr ⟨fun hand => (by simpa using hd : ¬ _) hand.2, ih.2⟩
      · simp only [collapseWs, if_neg hc]
        refine ⟨?_, ?_⟩
        · intro x hx hxs
          rcases List.mem_cons.mp hx with h | h
          · exact absurd hxs (by rw [h]; simpa using hc)
          · exact ih.1 x h hxs
        · refine List.chain'_cons'.mpr ⟨?_, ih.2⟩
          intro y _ hand
          exact (by simpa using hc : ¬ _) hand.1

lemma collapseWs_eq_self (l : List Char) (h : cleanWs l) : collapseWs l = l := by
  induction l with
  | nil => simp [collapseWs]
  | cons c cs ih =>
    cases cs with
    | nil =>
      by_cases hc : pyIsSpace c
      · have hce : c = ' ' := h.1 c (List.mem_cons_self c []) hc
        simp [collapseWs, hc, hce]
      · simp [collapseWs, hc]
    | cons d rest =>
      by_cases hc : pyIsSpace c
      · have hce : c = ' ' := h.1 c (List.mem_cons_self c _) hc
        have hd : pyIsSpace d = false := by
          by_contra hdd
          simp only [Bool.not_eq_false] at hdd
          exact (List.chain'_cons.mp h.2).1 ⟨hc, hdd⟩
        simp only [collapseWs, if_pos hc, if_neg (by simp [hd] : ¬ pyIsSpace d = true)]
        rw [ih (cleanWs_tail h), hce]
      · simp only [collapseWs, if_neg hc]
        rw [ih (cleanWs_tail h)]

lemma dropWhile_head_false (p : Char → Bool) (l : List Char) :
    ∀ a, (l.dropWhile p).head? = some a → p a = false := by
  induction l with
  | nil => intro a h; simp [List.dropWhile] at h
  | cons c cs ih =>
    intro a h
    by_cases hc : p c
    · exact ih a (by simpa [List.dropWhile_cons, hc] using h)
    · have hac : a = c := by
        rw [List.dropWhile_cons, if_neg hc] at h
        simpa using h.symm
      rw [hac]
      simpa using hc

lemma dropWhile_eq_self_of_head (p : Char → Bool) (l : List Char)
    (h : ∀ a, l.head? = some a → p a = false) : l.dropWhile p = l := by
  cases l with
  | nil => rfl
  | cons c cs => rw [List.dropWhile_cons, if_neg (by simp [h c rfl])]

lemma getLast?_of_suffix {α : Type} {t s : List α} (hsuf : t <:+ s) (hne : t ≠ []) :
    t.getLast? = s.getLast? := by
  rcases hsuf with ⟨pre, rfl⟩
  rw [List.getLast?_append_of_ne_nil pre hne]

lemma pyStrip_idem (l : List Char) : pyStrip (pyStrip l) = pyStrip l := by
  set A := l.dropWhile pyIsSpace with hA
  set B := A.reverse.dropWhile pyIsSpace with hB
  have hps : pyStrip l = B.reverse := rfl
  have hBlast : ∀ a, B.getLast? = some a → pyIsSpace a = false := by
    intro a ha
    have hBne : B ≠ [] := by
      intro hnil
      rw [hnil] at ha
      simp at ha
    have hsuf : B <:+ A.reverse := hB ▸ List.dropWhile_suffix pyIsSpace
    rw [getLast?_of_suffix hsuf hBne, List.getLast?_reverse] at ha
    rw [hA] at ha
    exact dropWhile_head_false pyIsSpace l a ha
  have step1 : B.reverse.dropWhile pyIsSpace = B.reverse := by
    refine dropWhile_eq_self_of_head pyIsSpace B.reverse ?_
    intro a ha
    rw [List.head?_reverse] at ha
    exact hBlast a ha
  have step2 : B.dropWhile pyIsSpace = B := by
    refine dropWhile_eq_self_of_head pyIsSpace B ?_
    intro a ha
    rw [hB] at ha
    exact dropWhile_head_false pyIsSpace A.reverse a ha
  rw [hps]
  show ((B.reverse.dropWhile pyIsSpace).reverse.dropWhile pyIsSpace).reverse = B.reverse
  rw [step1, List.reverse_reverse, step2]

lemma pyStrip_isInfix (l : List Char) : pyStrip l <:+: l := by
  have h1 : l.dropWhile pyIsSpace <:+ l := List.dropWhile_suffix pyIsSpace
  have h2 : (l.dropWhile pyIsSpace).reverse.dropWhile pyIsSpace <:+
      (l.dropWhile pyIsSpace).reverse := List.dropWhile_suffix pyIsSpace
  have h3 : pyStrip l <+: l.dropWhile pyIsSpace := by
    rw [pyStrip]
    have h4 := List.reverse_prefix.mpr h2
    simpa using h4
  exact h3.isInfix.trans h1.isInfix

lemma cleanWs_of_isInfix {l t : List Char} (h : cleanWs l) (hinf : t <:+: l) :
    cleanWs t :=
  ⟨fun c hc => h.1 c (hinf.sublist.mem hc), List.Chain'.infix h.2 hinf⟩

lemma mem_pyStrip {c : Char} {l : List Char} (h : c ∈ pyStrip l) : c ∈ l :=
  (pyStrip_isInfix l).sublist.mem h

/-! ### Lemmas: the extractive selection -/

lemma topSentenceIdxs_eq (text : String) :
    topSentenceIdxs text =
      List.insertionSort (· ≤ ·)
        ((List.insertionSort (fun a b => scoreAt text b ≤ scoreAt text a)
            (List.range (sentencesOf text).length)).take
          (max 2 (min 5 (3 * (sentencesOf text).length / 10)))) := rfl

lemma topSentenceIdxs_nodup (text : String) : (topSentenceIdxs text).Nodup := by
  rw [topSentenceIdxs_eq]
  have h1 : (List.insertionSort (fun a b => scoreAt text b ≤ scoreAt text a)
      (List.range (sentencesOf text).length)).Nodup :=
    (List.perm_insertionSort _ _).nodup_iff.mpr (List.nodup_range _)
  have h2 := (List.take_sublist (max 2 (min 5 (3 * (sentencesOf text).length / 10)))
      (List.insertionSort (fun a b => scoreAt text b ≤ scoreAt text a)
        (List.range (sentencesOf text).length))).nodup h1
  exact (List.perm_insertionSort _ _).nodup_iff.mpr h2

lemma topSentenceIdxs_sorted (text : String) :
    List.Sorted (· < ·) (topSentenceIdxs text) := by
  have hle : List.Sorted (· ≤ ·) (topSentenceIdxs text) := by
    rw [topSentenceIdxs_eq]
    exact List.sorted_insertionSort (· ≤ ·) _
  exact hle.lt_of_le (topSentenceIdxs_nodup text)

lemma topSentenceIdxs_mem (text : String) :
    ∀ i ∈ topSentenceIdxs text, i < (sentencesOf text).length := by
  intro i hi
  rw [topSentenceIdxs_eq] at hi
  have h1 := (List.perm_insertionSort (· ≤ ·) _).mem_iff.mp hi
  have h2 := (List.take_sublist _ _).mem h1
  have h3 := (List.perm_insertionSort
    (fun a b => scoreAt text b ≤ scoreAt text a) _).mem_iff.mp h2
  exact List.mem_range.mp h3

lemma topSentenceIdxs_length (text : String)
    (h : 4 ≤ (sentencesOf text).length) :
    (topSentenceIdxs text).length =
      max 2 (min 5 (3 * (sentencesOf text).length / 10)) := by
  rw [topSentenceIdxs_eq, List.length_insertionSort, List.length_take,
    List.length_insertionSort, List.length_range]
  omega

/-! ### Lemmas: the chunk construction -/

lemma blocks_eq_aux : ∀ (n : Nat) (ws : List String), ws.length ≤ n →
    (List.range ((ws.length + chunk_size - 1) / chunk_size)).map
      (fun j => (ws.drop (chunk_size * j)).take chunk_size) = blocksOfWords ws := by
  intro n
  induction n with
  | zero =>
    intro ws h
    have hnil : ws = [] := List.length_eq_zero.mp (Nat.le_zero.mp h)
    subst hnil
    rw [blocksOfWords]
    simp [chunk_size]
  | succ n ih =>
    intro ws hlen
    by_cases hws : ws = []
    · subst hws
      rw [blocksOfWords]
      simp [chunk_size]
    · rw [blocksOfWords, if_neg hws]
      have hlen1 : 1 ≤ ws.length :=
        Nat.pos_of_ne_zero fun h => hws (List.length_eq_zero.mp h)
      have hk : (ws.length + chunk_size - 1) / chunk_size =
          ((ws.drop chunk_size).length + chunk_size - 1) / chunk_size + 1 := by
        simp only [List.length_drop, chunk_size]
        omega
      rw [hk, List.range_succ_eq_map, List.map_cons, List.map_map]
      have hhead : (ws.drop (chunk_size * 0)).take chunk_size = ws.take chunk_size := by
        simp
      have htail :
          ((List.range (((ws.drop chunk_size).length + chunk_size - 1) / chunk_size)).map
            ((fun j => (ws.drop (chunk_size * j)).take chunk_size) ∘ Nat.succ)) =
          blocksOfWords (ws.drop chunk_size) := by
        rw [← ih (ws.drop chunk_size) (by
          simp only [List.length_drop, chunk_size]
          omega)]
        refine List.map_congr_left ?_
        intro j _
        simp only [Function.comp_apply]
        rw [List.drop_drop]
        congr 2
        rw [Nat.succ_eq_add_one]
        ring
      rw [hhead, htail]

lemma chunksOfText_eq_blocks (text : String) :
    chunksOfText text = (blocksOfWords (pySplitWords text)).map (pyJoin " ") := by
  rw [chunksOfText,
    ← blocks_eq_aux (pySplitWords text).length (pySplitWords text) le_rfl,
    List.map_map]
  rfl

/-! ### Lemmas: the paths through the engine and the route -/

lemma generate_summary_advisory (cfg : SummarizerCfg) (text : String)
    (mw minw : Nat) (h : wordCount text < 50) :
    generate_summary cfg text mw minw = .ok advisory := by
  simp [generate_summary, h]

lemma generate_summary_fallback_eq (text : String) (mw minw : Nat)
    (h : ¬ wordCount text < 50) :
    generate_summary .fallback text mw minw = .ok (extractive_summary text) := by
  simp [generate_summary, h]

lemma generate_summary_model_normal (call : String → Nat → Nat → Except String String)
    (text : String) (mw minw : Nat) (h50 : ¬ wordCount text < 50)
    (h1000 : ¬ 1000 < wordCount text) :
    generate_summary (.model call) text mw minw =
      match call text (dynamic_max_len mw minw (wordCount text)) minw with
      | .ok s => .ok s
      | .error e => .ok ("Error generating summary: " ++ e) := by
  simp [generate_summary, h50, h1000]

lemma generate_summary_model_long (call : String → Nat → Nat → Except String String)
    (text : String) (mw minw : Nat) (h : 1000 < wordCount text) :
    generate_summary (.model call) text mw minw =
      if mw < wordCount (combinedOf call text) then combinedOf call text |> (call · mw minw)
      else .ok (combinedOf call text) := by
  have h50 : ¬ wordCount text < 50 := by omega
  simp [generate_summary, h50, h]

lemma summarize_core_gate (cfg : SummarizerCfg) (dates money names : String → List String)
    (cleaned : String) (mw : Nat) (h : wordCount cleaned < 20) :
    summarize_core cfg dates money names cleaned mw = .error too_short_error := by
  simp [summarize_core, h]

lemma summarize_core_ok_shape (cfg : SummarizerCfg)
    (dates money names : String → List String) (cleaned : String) (mw : Nat)
    (s : String) (h20 : ¬ wordCount cleaned < 20)
    (hgen : generate_summary cfg cleaned mw 30 = .ok s) :
    summarize_core cfg dates money names cleaned mw =
      .ok { summary := s
            entities := extract_entities dates money names cleaned
            original_word_count := wordCount cleaned
            summary_word_count := wordCount s
            compression_ratio :=
              round1 ((1 - (wordCount s : ℚ) / (wordCount cleaned : ℚ)) * 100) } := by
  simp [summarize_core, h20, hgen]

lemma summarize_core_error (cfg : SummarizerCfg)
    (dates money names : String → List String) (cleaned : String) (mw : Nat)
    (e : String) (h20 : ¬ wordCount cleaned < 20)
    (hgen : generate_summary cfg cleaned mw 30 = .error e) :
    summarize_core cfg dates money names cleaned mw =
      .error ("An error occurred: " ++ e) := by
  simp [summarize_core, h20, hgen]

lemma generate_summary_model_error_iff (call : String → Nat → Nat → Except String String)
    (text : String) (mw minw : Nat) (e : String) :
    generate_summary (.model call) text mw minw = .error e ↔
      1000 < wordCount text ∧ mw < wordCount (combinedOf call text)
        ∧ call (combinedOf call text) mw minw = .error e := by
  by_cases h50 : wordCount text < 50
  · rw [generate_summary_advisory _ _ _ _ h50]
    constructor
    · intro h; cases h
    · rintro ⟨h1000, -, -⟩; omega
  · by_cases h1000 : 1000 < wordCount text
    · rw [generate_summary_model_long call text mw minw h1000]
      by_cases hif : mw < wordCount (combinedOf call text)
      · rw [if_pos hif]
        constructor
        · intro h; exact ⟨h1000, hif, h⟩
        · rintro ⟨-, -, h⟩; exact h
      · rw [if_neg hif]
        constructor
        · intro h; cases h
        · rintro ⟨-, hif2, -⟩; exact absurd hif2 hif
    · rw [generate_summary_model_normal call text mw minw h50 h1000]
      constructor
      · intro h
        cases hcall : call text (dynamic_max_len mw minw (wordCount text)) minw with
        | ok s => rw [hcall] at h; cases h
        | error e2 => rw [hcall] at h; cases h
      · rintro ⟨h1000b, -, -⟩; exact absurd h1000b h1000

lemma generate_summary_fallback_ne_error (text : String) (mw minw : Nat)
    (e : String) : generate_summary .fallback text mw minw ≠ .error e := by
  by_cases h50 : wordCount text < 50
  · rw [generate_summary_advisory _ _ _ _ h50]; intro h; cases h
  · rw [generate_summary_fallback_eq _ _ _ h50]; intro h; cases h

/-! ### Lemmas: the compression ratio of the advisory band -/

lemma advisory_ratio_ge (n : Nat) (h20 : 20 ≤ n) :
    (40 : ℚ) ≤ round1 ((1 - (12 : ℚ) / (n : ℚ)) * 100) := by
  have hn : (0 : ℚ) < (n : ℚ) := by
    have : (20 : ℚ) ≤ (n : ℚ) := by exact_mod_cast h20
    linarith
  have h1 : (12 : ℚ) / (n : ℚ) ≤ 3 / 5 := by
    rw [div_le_iff₀ hn]
    have : (20 : ℚ) ≤ (n : ℚ) := by exact_mod_cast h20
    linarith
  have h3 : (400 : ℤ) ≤ round ((1 - (12 : ℚ) / (n : ℚ)) * 100 * 10) := by
    rw [round_eq]
    exact Int.le_floor.mpr (by push_cast; linarith)
  have h4 : (400 : ℚ) ≤ (round ((1 - (12 : ℚ) / (n : ℚ)) * 100 * 10) : ℚ) := by
    exact_mod_cast h3
  rw [round1]
  linarith

lemma extractive_has_word (text : String) (h50 : 50 ≤ wordCount text) :
    extractive_summary text ≠ "" ∧ 1 ≤ wordCount (extractive_summary text) := by
  simp only [extractive_summary]
  split
  · constructor
    · intro h
      rw [h, wordCount_empty] at h50
      omega
    · omega
  · exact withDot_has_word _

/-! ## The claims -/

/-- Claim C1, amended.  Below the 20-word gate the route rejects with the
user-input error (src/app.py:267); in the band [20, 50) the engine returns
the fixed advisory string under either strategy (src/app.py:120-121); for
word count ≥ 50 under the in-repo fallback strategy the engine returns the
extractive summary, a non-empty string of at least one word.  As frozen, the
claim asserted the last part of the engine unconditionally; the
counterexample shows that under the model-backed strategy the engine returns
whatever the external model returns, which may be the empty string. -/
theorem C1_gate_advisory_fallback (cfg : SummarizerCfg)
    (dates money names : String → List String) (cleaned : String)
    (max_words min_words : Nat) :
    (wordCount cleaned < 20 →
      summarize_core cfg dates money names cleaned max_words = .error too_short_error)
    ∧ (20 ≤ wordCount cleaned → wordCount cleaned < 50 →
      generate_summary cfg cleaned max_words min_words = .ok advisory)
    ∧ (50 ≤ wordCount cleaned →
      generate_summary .fallback cleaned max_words min_words =
          .ok (extractive_summary cleaned)
        ∧ extractive_summary cleaned ≠ ""
        ∧ 1 ≤ wordCount (extractive_summary cleaned)) :=
  ⟨fun h => summarize_core_gate cfg dates money names cleaned max_words h,
    fun _ h50 => generate_summary_advisory cfg cleaned max_words min_words h50,
    fun h50 => ⟨generate_summary_fallback_eq cleaned max_words min_words (by omega),
      extractive_has_word cleaned h50⟩⟩

/-- Claim C1, witness: the three bands at concrete inputs of 10, 20 and 50
words on the fallback configuration. -/
theorem C1_witness :
    summarize_core .fallback noMatches noMatches noMatches text10 150 =
        .error too_short_error
    ∧ generate_summary .fallback text20 150 30 = .ok advisory
    ∧ generate_summary .fallback text50 150 30 = .ok (extractive_summary text50)
    ∧ extractive_summary text50 ≠ ""
    ∧ 1 ≤ wordCount (extractive_summary text50) :=
  ⟨(C1_gate_advisory_fallback .fallback noMatches noMatches noMatches text10 150 30).1
      (by decide),
    (C1_gate_advisory_fallback .fallback noMatches noMatches noMatches text20 150 30).2.1
      (by decide) (by decide),
    (C1_gate_advisory_fallback .fallback noMatches noMatches noMatches text50 150 30).2.2
      (by decide)⟩

/-- Claim C1, counterexample to the claim as frozen: under the model-backed
strategy, an external model that returns the empty string makes the engine
return an empty summary (word count 0) for a 50-word input, so "for word
count ≥ 50 the engine returns a non-empty summary whose word count is ≥ 1"
fails for one of the two strategies. -/
theorem C1_cex :
    wordCount text50 = 50
    ∧ generate_summary (.model emptyModel) text50 150 30 = .ok ""
    ∧ wordCount "" = 0 :=
  ⟨by decide, by with_unfolding_all rfl, rfl⟩

/-- Claim C2, amended: for the model-backed strategy (the fallback branch,
src/app.py:161-203, never chunks: it runs the extractive summarizer on the
whole text) and a text of more than 1000 words, the engine implements exactly
the block policy the claim states with truncation in place of rounding:
non-overlapping 800-word blocks (last possibly shorter), each summarized with
bounds `(min 100 ⌊0.3·blockWords⌋, 20)` and silently skipped on failure,
concatenated in order with single spaces, and re-summarized once with
`(max_words, min_words)` when the concatenation exceeds `max_words`. -/
theorem C2_model_chunking (call : String → Nat → Nat → Except String String)
    (text : String) (max_words min_words : Nat) (h : 1000 < wordCount text) :
    generate_summary (.model call) text max_words min_words =
      claimC2_chunking call text max_words min_words := by
  rw [generate_summary_model_long call text max_words min_words h]
  unfold claimC2_chunking combinedOf chunkSummaries chunkMaxLen
  rw [chunksOfText_eq_blocks]

set_option maxRecDepth 400000 in
/-- Claim C2, witness: the block policy at a concrete 1625-word input under
the bound-reporting model. -/
theorem C2_witness :
    generate_summary (.model echoModel) text1625 150 30 =
      claimC2_chunking echoModel text1625 150 30 :=
  C2_model_chunking echoModel text1625 150 30 (by decide)

set_option maxRecDepth 400000 in
/-- Claim C2, counterexample to the claim as frozen: on a 1625-word input the
last chunk has 25 words; the code passes it the upper bound
`min(100, int(25 * 0.3)) = 7` (visible in the echoed output), while the
claim's formula `min(100, round(25 × 0.3)) = 8`. -/
theorem C2_cex :
    wordCount text1625 = 1625
    ∧ generate_summary (.model echoModel) text1625 150 30 = .ok "100 20 100 20 7 20"
    ∧ chunkMaxLen 25 = 7
    ∧ min 100 (round ((25 : ℚ) * (3 / 10))) = 8 := by
  refine ⟨by decide, by with_unfolding_all rfl, by decide, ?_⟩
  have h8 : round ((25 : ℚ) * (3 / 10)) = 8 := by
    rw [round_eq]
    norm_num [Int.floor_eq_iff]
  rw [h8]
  norm_num

/-- Claim C3, amended: for a text of N ≥ 4 sentences the extractive
summarizer selects exactly `max(2, min(5, int(N * 0.3)))` sentences —
truncation, where the claim said rounding — whose indices are strictly
increasing (original document order) and in range, and returns them joined
with `". "`, a trailing period appended when missing. -/
theorem C3_selection (text : String) (h : 4 ≤ (sentencesOf text).length) :
    (topSentenceIdxs text).length =
        max 2 (min 5 (3 * (sentencesOf text).length / 10))
    ∧ List.Sorted (· < ·) (topSentenceIdxs text)
    ∧ (∀ i ∈ topSentenceIdxs text, i < (sentencesOf text).length)
    ∧ extractive_summary text =
        withDot (pyJoin ". "
          ((topSentenceIdxs text).map fun i => (sentencesOf text).getD i "")) := by
  refine ⟨topSentenceIdxs_length text h, topSentenceIdxs_sorted text,
    topSentenceIdxs_mem text, ?_⟩
  simp only [extractive_summary]
  rw [if_neg (by omega)]

/-- Claim C3, witness: the selection at the concrete 12-sentence input. -/
theorem C3_witness :
    (topSentenceIdxs ex12).length =
        max 2 (min 5 (3 * (sentencesOf ex12).length / 10))
    ∧ List.Sorted (· < ·) (topSentenceIdxs ex12)
    ∧ (∀ i ∈ topSentenceIdxs ex12, i < (sentencesOf ex12).length)
    ∧ extractive_summary ex12 =
        withDot (pyJoin ". "
          ((topSentenceIdxs ex12).map fun i => (sentencesOf ex12).getD i "")) :=
  C3_selection ex12 (by decide)

/-- Claim C3, counterexample to the claim as frozen: on twelve sentences the
code selects `max(2, min(5, int(12 * 0.3))) = 3` of them, while the claim's
`max(2, min(5, round(12 × 0.3))) = 4`. -/
theorem C3_cex :
    (sentencesOf ex12).length = 12
    ∧ (topSentenceIdxs ex12).length = 3
    ∧ max 2 (min 5 (round ((12 : ℚ) * (3 / 10)))) = 4 := by
  refine ⟨by decide, by with_unfolding_all rfl, ?_⟩
  have h4 : round ((12 : ℚ) * (3 / 10)) = 4 := by
    rw [round_eq]
    norm_num [Int.floor_eq_iff]
  rw [h4]
  norm_num

/-- Claim C4: every success record of the pipeline satisfies
`compressionRatio = round((1 - summaryWordCount / originalWordCount) * 100, 1)`
exactly, with `summaryWordCount` the returned summary's word count and
`originalWordCount` the normalized text's word count (src/app.py:274-275). -/
theorem C4_compression (cfg : SummarizerCfg)
    (dates money names : String → List String) (cleaned : String)
    (max_words : Nat) (r : SummaryRecord)
    (h : summarize_core cfg dates money names cleaned max_words = .ok r) :
    r.compression_ratio =
      round1 ((1 - (r.summary_word_count : ℚ) / (r.original_word_count : ℚ)) * 100)
    ∧ r.summary_word_count = wordCount r.summary
    ∧ r.original_word_count = wordCount cleaned := by
  by_cases h20 : wordCount cleaned < 20
  · rw [summarize_core_gate cfg dates money names cleaned max_words h20] at h
    cases h
  · cases hgen : generate_summary cfg cleaned max_words 30 with
    | error e =>
      rw [summarize_core_error cfg dates money names cleaned max_words e h20 hgen] at h
      cases h
    | ok s =>
      rw [summarize_core_ok_shape cfg dates money names cleaned max_words s h20 hgen] at h
      injection h with h2
      subst h2
      exact ⟨rfl, rfl, rfl⟩

/-- Claim C4, witness: the concrete success record of a 20-word input. -/
theorem C4_witness :
    rec20.compression_ratio =
      round1 ((1 - (rec20.summary_word_count : ℚ) / (rec20.original_word_count : ℚ)) * 100)
    ∧ rec20.summary_word_count = wordCount rec20.summary
    ∧ rec20.original_word_count = wordCount text20 :=
  C4_compression .fallback noMatches noMatches noMatches text20 150 rec20
    (by with_unfolding_all rfl)

/-- Claim C5, amended: on the single-call path (word count in [50, 1000]) the
engine hands the strategy the upper bound
`min(max_words, max(min_words, int(wordCount * 0.4)))` — truncation, where
the claim said rounding — and the lower bound `min_words`, exactly once, and
returns the call's result (a failure caught into the
"Error generating summary" string). -/
theorem C5_bounds (call : String → Nat → Nat → Except String String)
    (text : String) (max_words min_words : Nat) (h50 : 50 ≤ wordCount text)
    (h1000 : wordCount text ≤ 1000) :
    (generate_summary (.model call) text max_words min_words =
      match call text (dynamic_max_len max_words min_words (wordCount text)) min_words with
      | .ok s => .ok s
      | .error e => .ok ("Error generating summary: " ++ e))
    ∧ dynamic_max_len max_words min_words (wordCount text) =
        min max_words (max min_words (2 * wordCount text / 5))
    ∧ (dynamic_max_len max_words min_words (wordCount text) : ℤ) =
        min (max_words : ℤ) (max (min_words : ℤ) ⌊(wordCount text : ℚ) * (4 / 10)⌋) := by
  refine ⟨generate_summary_model_normal call text max_words min_words (by omega) (by omega),
    rfl, ?_⟩
  have hfl : ⌊(wordCount text : ℚ) * (4 / 10)⌋ = ((2 * wordCount text / 5 : ℕ) : ℤ) := by
    have hq : (wordCount text : ℚ) * (4 / 10) =
        ((4 * wordCount text : ℕ) : ℚ) / ((10 : ℕ) : ℚ) := by
      push_cast
      ring
    rw [hq, Rat.floor_natCast_div_natCast]
    have : 4 * wordCount text / 10 = 2 * wordCount text / 5 := by omega
    exact_mod_cast this
  rw [hfl, dynamic_max_len]
  push_cast
  omega

/-- Claim C5, witness: the single-call path at a concrete 50-word input. -/
theorem C5_witness :
    (generate_summary (.model constModel) text50 150 30 =
      match constModel text50 (dynamic_max_len 150 30 (wordCount text50)) 30 with
      | .ok s => .ok s
      | .error e => .ok ("Error generating summary: " ++ e))
    ∧ dynamic_max_len 150 30 (wordCount text50) =
        min 150 (max 30 (2 * wordCount text50 / 5))
    ∧ (dynamic_max_len 150 30 (wordCount text50) : ℤ) =
        min (150 : ℤ) (max (30 : ℤ) ⌊(wordCount text50 : ℚ) * (4 / 10)⌋) :=
  C5_bounds constModel text50 150 30 (by decide) (by decide)

/-- Claim C5, counterexample to the claim as frozen: a 79-word input is
summarized with upper bound `min(150, max(30, int(79 * 0.4))) = 31` (echoed
by the bound-reporting model), while the claim's formula with rounding gives
`min(150, max(30, round(79 × 0.4))) = 32`. -/
theorem C5_cex :
    wordCount text79 = 79
    ∧ generate_summary (.model echoModel) text79 150 30 = .ok "31 30"
    ∧ dynamic_max_len 150 30 79 = 31
    ∧ min (150 : ℤ) (max (30 : ℤ) (round ((79 : ℚ) * (4 / 10)))) = 32 := by
  refine ⟨by decide, by with_unfolding_all rfl, by decide, ?_⟩
  have h32 : round ((79 : ℚ) * (4 / 10)) = 32 := by
    rw [round_eq]
    norm_num [Int.floor_eq_iff]
  rw [h32]
  norm_num

/-- Claim C6, amended.  A per-chunk failure is skipped and a failure of the
single-call path is caught inside the engine and converted to the string
"Error generating summary: ⟨reason⟩"; but a failure of the re-summarization
call on the chunked path (src/app.py:145, outside any try of
generate_summary) propagates out of the engine — the error-characterization
below shows that is the only escape — and is converted into the error
envelope "An error occurred: ⟨reason⟩" only by the route's outer handler
(src/app.py:293-294).  The fallback strategy never raises. -/
theorem C6_error_paths (call : String → Nat → Nat → Except String String)
    (dates money names : String → List String) (text : String)
    (max_words min_words : Nat) (e : String) :
    (generate_summary (.model call) text max_words min_words = .error e ↔
      1000 < wordCount text ∧ max_words < wordCount (combinedOf call text)
        ∧ call (combinedOf call text) max_words min_words = .error e)
    ∧ generate_summary .fallback text max_words min_words ≠ .error e
    ∧ (50 ≤ wordCount text → wordCount text ≤ 1000 →
        call text (dynamic_max_len max_words min_words (wordCount text)) min_words =
          .error e →
        generate_summary (.model call) text max_words min_words =
          .ok ("Error generating summary: " ++ e))
    ∧ (generate_summary (.model call) text max_words 30 = .error e →
        summarize_core (.model call) dates money names text max_words =
          .error ("An error occurred: " ++ e)) := by
  refine ⟨generate_summary_model_error_iff call text max_words min_words e,
    generate_summary_fallback_ne_error text max_words min_words e, ?_, ?_⟩
  · intro h50 h1000 hcall
    rw [generate_summary_model_normal call text max_words min_words (by omega) (by omega),
      hcall]
  · intro hgen
    have h1000 : 1000 < wordCount text :=
      ((generate_summary_model_error_iff call text max_words 30 e).mp hgen).1
    exact summarize_core_error _ dates money names text max_words e (by omega) hgen

set_option maxRecDepth 400000 in
/-- Claim C6, witness: the caught single-call failure at a 50-word input, and
the escaping re-summarization failure at a 1001-word input converted by the
route handler. -/
theorem C6_witness :
    generate_summary (.model boomModel) text50 150 30 =
        .ok ("Error generating summary: " ++ "boom")
    ∧ summarize_core (.model resumFailModel) noMatches noMatches noMatches text1001 150 =
        .error ("An error occurred: " ++ "boom") :=
  ⟨(C6_error_paths boomModel noMatches noMatches noMatches text50 150 30 "boom").2.2.1
      (by decide) (by decide) rfl,
    (C6_error_paths resumFailModel noMatches noMatches noMatches text1001 150 30
        "boom").2.2.2 (by with_unfolding_all rfl)⟩

set_option maxRecDepth 400000 in
/-- Claim C6, counterexample to the claim as frozen: a model that succeeds on
every per-chunk call but raises on the re-summarization call makes
generate_summary itself raise (return `.error`) on a 1001-word input — the
failure is not caught inside the engine and no
"Error generating summary" string is produced there. -/
theorem C6_cex :
    wordCount text1001 = 1001
    ∧ generate_summary (.model resumFailModel) text1001 150 30 = .error "boom" :=
  ⟨by decide, by with_unfolding_all rfl⟩

/-- Claim C7: the fallback entity extractor returns at most 20 entities, at
most 5 labeled DATE, at most 5 labeled MONEY; every PERSON/ORG entity is one
of the first 10 capitalized-phrase matches and survives the length > 3
filter; and the result is the DATE, MONEY, PERSON/ORG groups concatenated in
that order, truncated to 20 — for every behaviour of the three external
regex matchers. -/
theorem C7_entity_caps (dates money names : String → List String) (text : String) :
    (extract_entities dates money names text).length ≤ 20
    ∧ ((extract_entities dates money names text).countP fun p =>
        decide (p.2 = "DATE")) ≤ 5
    ∧ ((extract_entities dates money names text).countP fun p =>
        decide (p.2 = "MONEY")) ≤ 5
    ∧ (∀ p ∈ extract_entities dates money names text, p.2 = "PERSON/ORG" →
        p.1 ∈ (names text).take 10 ∧ 3 < p.1.length)
    ∧ extract_entities dates money names text =
        (((dates text).take 5).map (fun d => (d, "DATE"))
          ++ ((money text).take 5).map (fun a => (a, "MONEY"))
          ++ (((names text).take 10).filter fun n => 3 < n.length).map
              (fun n => (n, "PERSON/ORG"))).take 20 := by
  refine ⟨?_, ?_, ?_, ?_, rfl⟩
  · simp [extract_entities]
  · refine le_trans ((List.take_sublist 20
      ((((dates text).take 5).map (fun d => (d, "DATE")))
        ++ ((money text).take 5).map (fun a => (a, "MONEY"))
        ++ (((names text).take 10).filter fun n => 3 < n.length).map
            (fun n => (n, "PERSON/ORG")))).countP_le
          (fun p => decide (p.2 = "DATE"))) ?_
    rw [List.countP_append, List.countP_append]
    have h1 : ((((dates text).take 5).map fun d => (d, "DATE")).countP
        fun p => decide (p.2 = "DATE")) ≤ 5 := by
      refine le_trans (List.countP_le_length _) ?_
      simp only [List.length_map, List.length_take]
      omega
    have h2 : ((((money text).take 5).map fun a => (a, "MONEY")).countP
        fun p => decide (p.2 = "DATE")) = 0 := by
      rw [List.countP_map]
      have hne : ¬ ("MONEY" : String) = "DATE" := by decide
      simp [Function.comp_def, hne]
    have h3 : (((((names text).take 10).filter fun n => 3 < n.length).map
        fun n => (n, "PERSON/ORG")).countP fun p => decide (p.2 = "DATE")) = 0 := by
      rw [List.countP_map]
      have hne : ¬ ("PERSON/ORG" : String) = "DATE" := by decide
      simp [Function.comp_def, hne]
    omega
  · refine le_trans ((List.take_sublist 20
      ((((dates text).take 5).map (fun d => (d, "DATE")))
        ++ ((money text).take 5).map (fun a => (a, "MONEY"))
        ++ (((names text).take 10).filter fun n => 3 < n.length).map
            (fun n => (n, "PERSON/ORG")))).countP_le
          (fun p => decide (p.2 = "MONEY"))) ?_
    rw [List.countP_append, List.countP_append]
    have h1 : ((((money text).take 5).map fun a => (a, "MONEY")).countP
        fun p => decide (p.2 = "MONEY")) ≤ 5 := by
      refine le_trans (List.countP_le_length _) ?_
      simp only [List.length_map, List.length_take]
      omega
    have h2 : ((((dates text).take 5).map fun d => (d, "DATE")).countP
        fun p => decide (p.2 = "MONEY")) = 0 := by
      rw [List.countP_map]
      have hne : ¬ ("DATE" : String) = "MONEY" := by decide
      simp [Function.comp_def, hne]
    have h3 : (((((names text).take 10).filter fun n => 3 < n.length).map
        fun n => (n, "PERSON/ORG")).countP fun p => decide (p.2 = "MONEY")) = 0 := by
      rw [List.countP_map]
      have hne : ¬ ("PERSON/ORG" : String) = "MONEY" := by decide
      simp [Function.comp_def, hne]
    omega
  · intro p hp hlabel
    have hp2 := (List.take_sublist 20 _).mem hp
    rcases List.mem_append.mp hp2 with hp3 | hp3
    · rcases List.mem_append.mp hp3 with hp4 | hp4
      · rcases List.mem_map.mp hp4 with ⟨d, -, rfl⟩
        simp at hlabel
      · rcases List.mem_map.mp hp4 with ⟨a, -, rfl⟩
        simp at hlabel
    · rcases List.mem_map.mp hp3 with ⟨nm, hnm, rfl⟩
      have hnm2 := List.mem_filter.mp hnm
      exact ⟨hnm2.1, by simpa using hnm2.2⟩

/-- Claim C8: an input of at most three `". "`-delimited sentences is
returned unchanged by the extractive summarizer (src/app.py:163-165). -/
theorem C8_short_input (text : String) (h : (sentencesOf text).length ≤ 3) :
    extractive_summary text = text := by
  simp only [extractive_summary]
  rw [if_pos h]

/-- Claim C8, witness: a two-word, one-sentence input. -/
theorem C8_witness : extractive_summary "hello world" = "hello world" :=
  C8_short_input "hello world" (by decide)

/-- Claim C9: the normalizer is idempotent.  Its output contains no `'<'`
(so the markup stripper leaves it unchanged), every whitespace run in it is
already a single space, and it is stripped — so a second pass returns it
unchanged. -/
theorem C9_normalize_idempotent (s : String) :
    clean_text (clean_text s) = clean_text s := by
  unfold clean_text
  have hdata : (String.mk (pyStrip (collapseWs (stripTags s.data)))).data =
      pyStrip (collapseWs (stripTags s.data)) := rfl
  rw [hdata]
  have hlt : '<' ∉ pyStrip (collapseWs (stripTags s.data)) := by
    intro hmem
    rcases mem_collapseWs _ _ (mem_pyStrip hmem) with h | h
    · exact absurd h (by decide)
    · exact stripTags_no_lt _ h
  rw [stripTags_eq_self _ hlt]
  have hclean : cleanWs (pyStrip (collapseWs (stripTags s.data))) :=
    cleanWs_of_isInfix (collapseWs_cleanWs _) (pyStrip_isInfix _)
  rw [collapseWs_eq_self _ hclean, pyStrip_idem]

/-- Claim C10, amended: every normalized input with word count in [20, 50)
takes the success envelope, never the error envelope, with the advisory
sentence as the summary and the compression ratio computed from the advisory
sentence's own word count (12); since the gate guarantees at least 20
original words, that ratio is always at least 40.0, hence strictly positive —
never zero or negative, contrary to the frozen claim's parenthetical. -/
theorem C10_advisory_envelope (cfg : SummarizerCfg)
    (dates money names : String → List String) (cleaned : String)
    (max_words : Nat) (h20 : 20 ≤ wordCount cleaned)
    (h50 : wordCount cleaned < 50) :
    summarize_core cfg dates money names cleaned max_words =
      .ok { summary := advisory
            entities := extract_entities dates money names cleaned
            original_word_count := wordCount cleaned
            summary_word_count := wordCount advisory
            compression_ratio :=
              round1 ((1 - (wordCount advisory : ℚ) / (wordCount cleaned : ℚ)) * 100) }
    ∧ wordCount advisory = 12
    ∧ 0 < round1 ((1 - (wordCount advisory : ℚ) / (wordCount cleaned : ℚ)) * 100) := by
  have hadv : wordCount advisory = 12 := by decide
  refine ⟨summarize_core_ok_shape cfg dates money names cleaned max_words advisory
      (by omega) (generate_summary_advisory cfg cleaned max_words 30 h50), hadv, ?_⟩
  rw [hadv]
  have h40 := advisory_ratio_ge (wordCount cleaned) h20
  push_cast at h40 ⊢
  linarith

/-- Claim C10, witness: the advisory envelope at a concrete 20-word input. -/
theorem C10_witness :
    summarize_core .fallback noMatches noMatches noMatches text20 150 =
      .ok { summary := advisory
            entities := extract_entities noMatches noMatches noMatches text20
            original_word_count := wordCount text20
            summary_word_count := wordCount advisory
            compression_ratio :=
              round1 ((1 - (wordCount advisory : ℚ) / (wordCount text20 : ℚ)) * 100) }
    ∧ wordCount advisory = 12
    ∧ 0 < round1 ((1 - (wordCount advisory : ℚ) / (wordCount text20 : ℚ)) * 100) :=
  C10_advisory_envelope .fallback noMatches noMatches noMatches text20 150
    (by decide) (by decide)

/-- Claim C10, counterexample to the frozen claim's "compressionRatio can be
zero or negative": the exhaustive scan of every reachable advisory-band word
count (20 to 49) finds the ratio strictly positive, and at the boundary input
the concrete record carries ratio 40.0. -/
theorem C10_cex :
    advisory_compression_scan = true
    ∧ summarize_core .fallback noMatches noMatches noMatches text20 150 = .ok rec20
    ∧ rec20.compression_ratio = 40 :=
  ⟨by with_unfolding_all rfl, by with_unfolding_all rfl, rfl⟩

end AiSum
